import Mathlib

/-!
Verification development for the avid-media-server session-orchestration layer.

The definitions below are a shallow embedding of the TypeScript source:
  * rooms module (getRoom, closeRoom, addParticipant event handlers,
    getJoinedParticipants) — src/unnamed/part_000
  * rtc module (makeConsumer) — src/src/rtc.ts
  * wrapper module (wrapper.event) — src/unnamed/part_002
  * worker selection loop inside getRoom — src/unnamed/part_000, lines 113-119

Modelling conventions:
  * JavaScript string ids (participant, transport, producer, consumer, room)
    become Nat ids; engine-generated fresh ids (producer/consumer uuids)
    become counters on the room state.
  * Records keyed by id become association lists (List of values carrying
    their id), matching Object.values / indexing by id.
  * The engine check router.canConsume is an uninterpreted boolean function
    cc : rtp-capabilities -> producerId -> Bool, passed as a parameter.
  * Worker cpu loads (floats in the source) are modelled as rationals; only
    order comparisons on them occur in the code.
  * Handlers are synchronous state transformers returning the room state
    reached when the handler finishes or throws, the list of externally
    visible effects performed before returning, and the error that escaped
    the handler body (if any): this matches JavaScript semantics, where
    mutations performed before a throw persist.
  * Await points matter only in getRoom (room creation); its body is
    embedded as a small-step machine with one program-counter state per
    suspension point, so interleavings of concurrent calls can be examined.
-/

namespace Avid

/-- Media kind of a producer ('audio' | 'video'). -/
inductive MKind where
  | audio
  | video
  deriving DecidableEq

/-- Transport type tag stored in appData ('producer' | 'consumer'). -/
inductive TType where
  | producer
  | consumer
  deriving DecidableEq

/-- Permissions relevant to this server (members of the AllPermissions set). -/
inductive Perm where
  | can_speak
  | can_share_video
  | can_view
  deriving DecidableEq

/-- A webrtc transport owned by a participant (id and appData.type). -/
structure Transport where
  id : Nat
  ttype : TType
  deriving DecidableEq

/-- A mediasoup producer: engine id, media kind, paused flag. -/
structure Producer where
  id : Nat
  kind : MKind
  paused : Bool := false
  deriving DecidableEq

/-- A mediasoup consumer: engine id, the producer it references, paused flag.
Consumers are created in paused mode (rtc.ts line 162-166). -/
structure Consumer where
  id : Nat
  producerId : Nat
  paused : Bool
  deriving DecidableEq

/-- An rtc participant (rooms module, type Participant). The socket is
represented implicitly: emits targeting the participant carry its id.
capabilities_rtp / capabilities_sctp model capabilities.rtp / .sctp. -/
structure Participant where
  id : Nat
  joined : Bool
  device : Option Nat
  transports : List Transport
  producers : List Producer
  consumers : List Consumer
  capabilities_rtp : Option Nat
  capabilities_sctp : Option Nat
  is_admin : Bool
  permissions : List Perm
  deriving DecidableEq

/-- An rtc room (rooms module, type Room). The router is represented by its
engine id; observers.audio_level by an optional engine id. nextProducerId and
nextConsumerId model the engine generating fresh ids on produce/consume. -/
structure Room where
  id : Nat
  routerId : Nat
  observers_audioLevel : Option Nat
  participants : List Participant
  speaking : List Nat
  nextProducerId : Nat
  nextConsumerId : Nat
  deriving DecidableEq

/-- The module-level room map `_rooms` (rooms module line 94). -/
abbrev Registry := List (Nat × Room)

/-- Externally visible actions a handler performs (socket emits, engine
calls, database queries, calls into closeRoom). -/
inductive Effect where
  | emitParticipantLeft (pid : Nat)
  | emitParticipantJoined (pid : Nat)
  | emitJoinedAck (toPid : Nat) (roster : List Nat)
  | emitMakeConsumer (toPid : Nat) (peerId : Nat) (consumerId : Nat) (producerId : Nat)
  | produceCallback (result : Option Nat)
  | engineConsume (transportId : Nat) (producerId : Nat)
  | closeTransport (transportId : Nat)
  | closeProducer (producerId : Nat)
  | observerAddProducer (producerId : Nat)
  | dbAddParticipant (roomId : Nat) (pid : Nat)
  | dbRemoveParticipant (roomId : Nat) (pid : Nat)
  | disconnectSocket (pid : Nat)
  | closeRouter (routerId : Nat)
  | callCloseRoom (roomId : Nat)
  deriving DecidableEq

/-- An error escaping a handler body: a synchronous throw, or a rejection of
the promise returned by an async handler. wrapper.event treats the two cases
in distinct branches (part_002 lines 19-28). -/
inductive HandlerErr where
  | syncThrow (msg : String)
  | asyncReject (msg : String)
  deriving DecidableEq

/-- The error message carried by a handler error. -/
def HandlerErr.message : HandlerErr → String
  | .syncThrow m => m
  | .asyncReject m => m

/-- Result of running one (unwrapped) event handler: the room state when the
handler returned or threw, the effects already performed, and the escaped
error if any. -/
structure HRes where
  room : Room
  effects : List Effect
  thrown : Option HandlerErr
  deriving DecidableEq

/-- The assertion message shared by all media-control handlers
(rooms module lines 346, 408, 427, 449, 468, 484). -/
def joinedAssertMsg : String := "participant does not exist or is not joined"

/-- Association lookup by participant id. -/
def findP : List Participant → Nat → Option Participant
  | [], _ => none
  | p :: rest, pid => if p.id == pid then some p else findP rest pid

/-- `room.participants[pid]` — lookup of a participant by id. -/
def findParticipant (room : Room) (pid : Nat) : Option Participant :=
  findP room.participants pid

/-- In-place mutation of the participant stored under `pid`. -/
def updateParticipant (room : Room) (pid : Nat) (f : Participant → Participant) : Room :=
  { room with participants := room.participants.map (fun p => if p.id == pid then f p else p) }

/-- getJoinedParticipants (rooms module lines 517-519): participants that are
fully joined, excluding `excludeId`. All call sites pass an exclude id. -/
def getJoinedParticipants (room : Room) (excludeId : Nat) : List Participant :=
  room.participants.filter (fun u => u.joined && u.id != excludeId)

/-- The guard of makeConsumer (rtc.ts lines 155-159): the consuming
participant has rtp capabilities and router.canConsume accepts the pair. -/
def capsOk (cc : Nat → Nat → Bool) (q : Participant) (producerId : Nat) : Bool :=
  match q.capabilities_rtp with
  | none => false
  | some caps => cc caps producerId

/-- makeConsumer (rtc.ts lines 135-243). Returns without change when the
guard fails; otherwise asks the engine for a consumer (fresh id, created
paused), stores it in the consuming participant's consumer map and notifies
the client with make-consumer. consumerPid/producerPid are the ids of the
consuming and producing participants passed as options.participant. -/
def makeConsumer (cc : Nat → Nat → Bool) (room : Room) (consumerPid producerPid : Nat)
    (producer : Producer) (transportId : Nat) : Room × List Effect :=
  match findParticipant room consumerPid with
  | none => (room, [])
  | some q =>
    if capsOk cc q producer.id then
      let c : Consumer := { id := room.nextConsumerId, producerId := producer.id, paused := true }
      ({ updateParticipant room consumerPid (fun u => { u with consumers := u.consumers ++ [c] }) with
           nextConsumerId := room.nextConsumerId + 1 },
       [Effect.engineConsume transportId producer.id,
        Effect.emitMakeConsumer consumerPid producerPid c.id producer.id])
    else (room, [])

/-- The 'config' handler (rooms module lines 276-323). Saves the client
device and capabilities, marks the participant joined, takes the roster of
already joined participants, and — in the acknowledgment callback of the
'joined' emit, modelled as running immediately after — creates a consumer
for every producer of every roster participant on the consumer transport.
The handler itself is synchronous, so its assertion failure is a
synchronous throw. -/
def handleConfig (cc : Nat → Nat → Bool) (room : Room) (pid : Nat)
    (device rtpCaps sctpCaps : Nat) : HRes :=
  match findParticipant room pid with
  | none => ⟨room, [], some (.syncThrow "TypeError: participant is undefined")⟩
  | some p =>
    let room1 := updateParticipant room pid (fun q =>
      { q with device := some device, capabilities_rtp := some rtpCaps,
               capabilities_sctp := some sctpCaps, joined := true })
    let joined := getJoinedParticipants room1 pid
    match p.transports.find? (fun t => t.ttype == TType.consumer) with
    | none =>
      ⟨room1,
       [Effect.emitJoinedAck pid (joined.map (fun u => u.id)),
        Effect.emitParticipantJoined pid,
        Effect.dbAddParticipant room.id pid],
       some (.syncThrow "could not find a consumer transport")⟩
    | some tr =>
      let fanned := joined.foldl (fun acc peer =>
          peer.producers.foldl (fun a pr =>
              let step := makeConsumer cc a.1 pid peer.id pr tr.id
              (step.1, a.2 ++ step.2)) acc) (room1, ([] : List Effect))
      ⟨fanned.1,
       [Effect.emitJoinedAck pid (joined.map (fun u => u.id)),
        Effect.emitParticipantJoined pid,
        Effect.dbAddParticipant room.id pid] ++ fanned.2,
       none⟩

/-- The 'disconnect' handler (rooms module lines 242-270). Broadcasts
participant-left only if the participant had joined, closes every owned
transport, removes the participant from the db membership list and from the
room, and calls closeRoom when the room became empty. -/
def handleDisconnect (room : Room) (pid : Nat) : HRes :=
  match findParticipant room pid with
  | none => ⟨room, [], some (.syncThrow "TypeError: participant is undefined")⟩
  | some p =>
    let leftEmit := if p.joined then [Effect.emitParticipantLeft pid] else []
    let closeEffs := p.transports.map (fun t => Effect.closeTransport t.id)
    let room1 := { room with participants := room.participants.filter (fun q => q.id != pid) }
    let closeEff := if room1.participants.length == 0 then [Effect.callCloseRoom room.id] else []
    ⟨room1, leftEmit ++ closeEffs ++ [Effect.dbRemoveParticipant room.id pid] ++ closeEff, none⟩

/-- The 'produce' handler (rooms module lines 340-400), an async handler.
Asserts the sender exists and is joined; denies (callback null) when a
non-admin lacks the permission for the requested kind; asserts the
transport exists; creates the producer (fresh engine id) and stores it in
the participant producer map; replies with the producer id; then creates a
consumer for every joined peer that has a consumer transport; finally adds
audio producers to the audio level observer. -/
def handleProduce (cc : Nat → Nat → Bool) (room : Room) (pid : Nat)
    (transportId : Nat) (kind : MKind) : HRes :=
  match findParticipant room pid with
  | none => ⟨room, [], some (.asyncReject joinedAssertMsg)⟩
  | some p =>
    if p.joined then
      if !p.is_admin &&
         ((kind == MKind.audio && !(p.permissions.contains Perm.can_speak)) ||
          (kind == MKind.video && !(p.permissions.contains Perm.can_share_video))) then
        ⟨room, [Effect.produceCallback none], none⟩
      else
        match p.transports.find? (fun t => t.id == transportId) with
        | none => ⟨room, [], some (.asyncReject "transport does not exist")⟩
        | some _ =>
          let producer : Producer := { id := room.nextProducerId, kind := kind }
          let room1 :=
            { updateParticipant room pid (fun q => { q with producers := q.producers ++ [producer] }) with
                nextProducerId := room.nextProducerId + 1 }
          let peers := getJoinedParticipants room1 pid
          let fanned := peers.foldl (fun acc peer =>
              match peer.transports.find? (fun t => t.ttype == TType.consumer) with
              | none => acc
              | some t =>
                let step := makeConsumer cc acc.1 peer.id pid producer t.id
                (step.1, acc.2 ++ step.2)) (room1, ([] : List Effect))
          let obs := if room.observers_audioLevel.isSome && kind == MKind.audio then
              [Effect.observerAddProducer producer.id] else []
          ⟨fanned.1, [Effect.produceCallback (some producer.id)] ++ fanned.2 ++ obs, none⟩
    else ⟨room, [], some (.asyncReject joinedAssertMsg)⟩

/-- Sets the paused flag of one consumer of one participant. -/
def setConsumerPaused (room : Room) (pid cid : Nat) (b : Bool) : Room :=
  updateParticipant room pid (fun q =>
    { q with consumers := q.consumers.map (fun c => if c.id == cid then { c with paused := b } else c) })

/-- The loop body shared by the consumers-paused / consumers-resumed
handlers: for each id, assert the consumer exists, then pause or resume it.
A failed assertion aborts the loop, keeping the mutations already made. -/
def setConsumersLoop (pid : Nat) (b : Bool) : List Nat → Room → Room × Option HandlerErr
  | [], room => (room, none)
  | cid :: rest, room =>
    match (findParticipant room pid).bind (fun q => q.consumers.find? (fun c => c.id == cid)) with
    | none => (room, some (.asyncReject "consumer does not exist"))
    | some _ => setConsumersLoop pid b rest (setConsumerPaused room pid cid b)

/-- The 'consumers-paused' handler (rooms module lines 406-422), async. -/
def handleConsumersPaused (room : Room) (pid : Nat) (ids : List Nat) : HRes :=
  match findParticipant room pid with
  | none => ⟨room, [], some (.asyncReject joinedAssertMsg)⟩
  | some p =>
    if p.joined then
      let out := setConsumersLoop pid true ids room
      ⟨out.1, [], out.2⟩
    else ⟨room, [], some (.asyncReject joinedAssertMsg)⟩

/-- The 'consumers-resumed' handler (rooms module lines 425-441), async. -/
def handleConsumersResumed (room : Room) (pid : Nat) (ids : List Nat) : HRes :=
  match findParticipant room pid with
  | none => ⟨room, [], some (.asyncReject joinedAssertMsg)⟩
  | some p =>
    if p.joined then
      let out := setConsumersLoop pid false ids room
      ⟨out.1, [], out.2⟩
    else ⟨room, [], some (.asyncReject joinedAssertMsg)⟩

/-- The 'producer-closed' handler (rooms module lines 447-463). This handler
is not async, so its assertion failures are synchronous throws. -/
def handleProducerClosed (room : Room) (pid : Nat) (producerId : Nat) : HRes :=
  match findParticipant room pid with
  | none => ⟨room, [], some (.syncThrow joinedAssertMsg)⟩
  | some p =>
    if p.joined then
      match p.producers.find? (fun pr => pr.id == producerId) with
      | none => ⟨room, [], some (.syncThrow "producer does not exist")⟩
      | some _ =>
        ⟨updateParticipant room pid (fun q =>
           { q with producers := q.producers.filter (fun pr => pr.id != producerId) }),
         [Effect.closeProducer producerId], none⟩
    else ⟨room, [], some (.syncThrow joinedAssertMsg)⟩

/-- Sets the paused flag of one producer of one participant. -/
def setProducerPaused (room : Room) (pid prodId : Nat) (b : Bool) : Room :=
  updateParticipant room pid (fun q =>
    { q with producers := q.producers.map (fun pr => if pr.id == prodId then { pr with paused := b } else pr) })

/-- The 'producer-paused' handler (rooms module lines 466-479), async. -/
def handleProducerPaused (room : Room) (pid : Nat) (producerId : Nat) : HRes :=
  match findParticipant room pid with
  | none => ⟨room, [], some (.asyncReject joinedAssertMsg)⟩
  | some p =>
    if p.joined then
      match p.producers.find? (fun pr => pr.id == producerId) with
      | none => ⟨room, [], some (.asyncReject "producer does not exist")⟩
      | some _ => ⟨setProducerPaused room pid producerId true, [], none⟩
    else ⟨room, [], some (.asyncReject joinedAssertMsg)⟩

/-- The 'producer-resumed' handler (rooms module lines 482-495), async. -/
def handleProducerResumed (room : Room) (pid : Nat) (producerId : Nat) : HRes :=
  match findParticipant room pid with
  | none => ⟨room, [], some (.asyncReject joinedAssertMsg)⟩
  | some p =>
    if p.joined then
      match p.producers.find? (fun pr => pr.id == producerId) with
      | none => ⟨room, [], some (.asyncReject "producer does not exist")⟩
      | some _ => ⟨setProducerPaused room pid producerId false, [], none⟩
    else ⟨room, [], some (.asyncReject joinedAssertMsg)⟩

/-- `_rooms[room_id]` lookup over the registry. -/
def lookupRoom (reg : Registry) (rid : Nat) : Option Room :=
  (reg.find? (fun e => e.1 == rid)).map (fun e => e.2)

/-- closeRoom (rooms module lines 163-179). The source reads
`room.participants` without checking that the room exists, so a call with an
id absent from the registry throws a TypeError; the error case of the Except
models that throw. For a present room: disconnect every remaining
participant socket, close the router, remove the registry entry. -/
def closeRoom (reg : Registry) (rid : Nat) : Except String (Registry × List Effect) :=
  match lookupRoom reg rid with
  | none => .error "TypeError: Cannot read properties of undefined (reading participants)"
  | some room =>
    .ok (reg.filter (fun e => e.1 != rid),
         room.participants.map (fun p => Effect.disconnectSocket p.id) ++
           [Effect.closeRouter room.routerId])

/-- The worker-selection loop of getRoom (rooms module lines 113-119),
written as a structural scan: `rest` is the part of `loads` from index `i`
on, and `best` is the index of the lowest load seen so far; a strictly
smaller load replaces the current best, so the first minimal index wins. -/
def selectScan (loads : List ℚ) (best : Nat) (i : Nat) : List ℚ → Nat
  | [] => best
  | l :: rest => selectScan loads (if l < loads.getD best 0 then i else best) (i + 1) rest

/-- Index of the selected worker: the loop starts with workerIdx = 0 and
scans all loads from index 0. -/
def selectWorkerIdx (loads : List ℚ) : Nat :=
  selectScan loads 0 0 loads

/-- Program counter of one getRoom call (rooms module lines 105-155). The
body has two await points after the registry check: `await
worker.createRouter` and `await makeAudioLevelObserver`; the registry insert
happens only after both resolve. -/
inductive GetRoomPC where
  | start
  | awaitRouter (workerIdx : Nat)
  | awaitObserver (room : Room)
  | done (room : Room)
  deriving DecidableEq

/-- Module-level server state shared by getRoom calls: the `_rooms` map, a
counter producing fresh engine ids (router and observer ids), and a count
of routers created (one per created Room). -/
structure ServerSt where
  registry : Registry
  nextEngineId : Nat
  routersCreated : Nat
  deriving DecidableEq

/-- One step of a getRoom call: from `start`, check the registry and either
return the existing room or pick the least loaded worker and start creating
the router (suspending); from `awaitRouter`, the router exists — build the
room record and start creating the audio level observer (suspending); from
`awaitObserver`, attach the observer, store the room in the registry and
return it. -/
def getRoomStep (rid : Nat) (loads : List ℚ) (s : ServerSt) : GetRoomPC → ServerSt × GetRoomPC
  | .start =>
    match lookupRoom s.registry rid with
    | some room => (s, .done room)
    | none => (s, .awaitRouter (selectWorkerIdx loads))
  | .awaitRouter _ =>
    let room : Room :=
      { id := rid, routerId := s.nextEngineId, observers_audioLevel := none,
        participants := [], speaking := [], nextProducerId := 0, nextConsumerId := 0 }
    ({ s with nextEngineId := s.nextEngineId + 1, routersCreated := s.routersCreated + 1 },
     .awaitObserver room)
  | .awaitObserver room =>
    let room2 := { room with observers_audioLevel := some s.nextEngineId }
    ({ s with nextEngineId := s.nextEngineId + 1,
              registry := (rid, room2) :: s.registry.filter (fun e => e.1 != rid) },
     .done room2)
  | .done room => (s, .done room)

/-- The room of a finished getRoom call, if the call has finished. -/
def pcRoom : GetRoomPC → Option Room
  | .done room => some room
  | _ => none

/-- A log line written by the error handler of wrapper.event:
room.log.error(err, sender) carries the room context and the sender id. -/
structure LogEntry where
  message : String
  roomId : Nat
  sender : Option Nat
  deriving DecidableEq

/-- What the caller of a wrapped handler observes: the final room state, the
effects performed, the log lines written, and the error that escaped the
wrapped function (if any). -/
structure WrappedOutcome where
  room : Room
  effects : List Effect
  logs : List LogEntry
  propagated : Option String
  deriving DecidableEq

/-- wrapper.event (part_002 lines 13-30) applied to the outcome of a handler
body: a normal return is passed through; a synchronous throw is caught by
the try/catch and handed to handleError; a rejected promise is handed to
handleError through ret.catch. In both failure branches handleError logs the
error with the room logger and the sender id, and nothing escapes. -/
def wrapperEvent (roomId : Nat) (sender : Option Nat) (res : HRes) : WrappedOutcome :=
  match res.thrown with
  | none => ⟨res.room, res.effects, [], none⟩
  | some (.syncThrow m) => ⟨res.room, res.effects, [⟨m, roomId, sender⟩], none⟩
  | some (.asyncReject m) => ⟨res.room, res.effects, [⟨m, roomId, sender⟩], none⟩

/-! ### Lookup and update lemmas -/

/-- Updating the entries matching `pid` with an id-preserving function
commutes with looking up `pid`: the first match is transformed. -/
lemma findP_map_update (l : List Participant) (pid : Nat) (f : Participant → Participant)
    (hid : ∀ p, (f p).id = p.id) :
    findP (l.map (fun p => if p.id == pid then f p else p)) pid = (findP l pid).map f := by
  induction l with
  | nil => rfl
  | cons a t ih =>
    rw [List.map_cons]
    by_cases h : a.id = pid
    · have hg : (if (a.id == pid) = true then f a else a) = f a := if_pos (by simp [h])
      rw [hg]
      simp only [findP]
      rw [if_pos (by simp [hid, h]), if_pos (by simp [h])]
      rfl
    · have hg : (if (a.id == pid) = true then f a else a) = a := if_neg (by simp [h])
      rw [hg]
      simp only [findP]
      rw [if_neg (by simp [h]), if_neg (by simp [h]), ih]

/-- Updating the entries matching `pid` does not change lookups of a
different id. -/
lemma findP_map_update_other (l : List Participant) (pid pid2 : Nat)
    (f : Participant → Participant) (hid : ∀ p, (f p).id = p.id) (hne : pid2 ≠ pid) :
    findP (l.map (fun p => if p.id == pid then f p else p)) pid2 = findP l pid2 := by
  induction l with
  | nil => rfl
  | cons a t ih =>
    rw [List.map_cons]
    by_cases h : a.id = pid
    · have h2 : a.id ≠ pid2 := by omega
      have hg : (if (a.id == pid) = true then f a else a) = f a := if_pos (by simp [h])
      rw [hg]
      simp only [findP]
      rw [if_neg (by simp [hid, h2]), if_neg (by simp [h2]), ih]
    · have hg : (if (a.id == pid) = true then f a else a) = a := if_neg (by simp [h])
      rw [hg]
      simp only [findP]
      by_cases h2 : a.id = pid2
      · rw [if_pos (by simp [h2]), if_pos (by simp [h2])]
      · rw [if_neg (by simp [h2]), if_neg (by simp [h2]), ih]

lemma findParticipant_update_self (room : Room) (pid : Nat) (f : Participant → Participant)
    (hid : ∀ p, (f p).id = p.id) :
    findParticipant (updateParticipant room pid f) pid = (findParticipant room pid).map f :=
  findP_map_update room.participants pid f hid

lemma findParticipant_update_other (room : Room) (pid pid2 : Nat)
    (f : Participant → Participant) (hid : ∀ p, (f p).id = p.id) (hne : pid2 ≠ pid) :
    findParticipant (updateParticipant room pid f) pid2 = findParticipant room pid2 :=
  findP_map_update_other room.participants pid pid2 f hid hne

/-- With no duplicate ids, looking up the id of a member returns exactly
that member. -/
lemma findP_of_mem_nodup (l : List Participant) (p : Participant)
    (hnd : (l.map (fun q => q.id)).Nodup) (hp : p ∈ l) :
    findP l p.id = some p := by
  induction l with
  | nil => cases hp
  | cons a t ih =>
    rcases List.mem_cons.mp hp with rfl | hp
    · simp [findP]
    · have hnd2 := List.nodup_cons.mp hnd
      have h : a.id ≠ p.id := by
        intro hcontra
        apply hnd2.1
        have hm := List.mem_map_of_mem (fun q => q.id) hp
        simpa [hcontra] using hm
      simp [findP, h, ih hnd2.2 hp]

lemma findParticipant_of_mem (room : Room) (p : Participant)
    (hnd : (room.participants.map (fun q => q.id)).Nodup) (hp : p ∈ room.participants) :
    findParticipant room p.id = some p :=
  findP_of_mem_nodup room.participants p hnd hp

/-- With no duplicate ids, two members sharing an id are the same member. -/
lemma member_id_inj (room : Room) (p q : Participant)
    (hnd : (room.participants.map (fun u => u.id)).Nodup)
    (hp : p ∈ room.participants) (hq : q ∈ room.participants) (hpq : p.id = q.id) : p = q := by
  have h1 := findParticipant_of_mem room p hnd hp
  have h2 := findParticipant_of_mem room q hnd hq
  rw [hpq] at h1
  rw [h1] at h2
  exact Option.some_injective _ h2

/-- updateParticipant with an id-preserving function keeps the id list. -/
lemma updateParticipant_ids (room : Room) (pid : Nat) (f : Participant → Participant)
    (hid : ∀ p, (f p).id = p.id) :
    (updateParticipant room pid f).participants.map (fun q => q.id) =
      room.participants.map (fun q => q.id) := by
  unfold updateParticipant
  simp only [List.map_map]
  apply List.map_congr_left
  intro a _
  by_cases h : a.id = pid <;> simp [Function.comp, h, hid]

/-- A member whose id is not `pid` stays a member after updateParticipant. -/
lemma mem_update_of_ne (room : Room) (pid : Nat) (f : Participant → Participant)
    (q : Participant) (hq : q ∈ room.participants) (hne : q.id ≠ pid) :
    q ∈ (updateParticipant room pid f).participants := by
  unfold updateParticipant
  have := List.mem_map_of_mem (fun p => if p.id == pid then f p else p) hq
  simpa [hne] using this

lemma findParticipant_set_nextConsumerId (room : Room) (n pid : Nat) :
    findParticipant { room with nextConsumerId := n } pid = findParticipant room pid := rfl

lemma capsOk_eq (cc : Nat → Nat → Bool) (q : Participant) (caps prodId : Nat)
    (hcaps : q.capabilities_rtp = some caps) : capsOk cc q prodId = cc caps prodId := by
  simp [capsOk, hcaps]

/-! ### makeConsumer characterization -/

/-- Effect of makeConsumer on the consuming participant: when the capability
guard passes, exactly one consumer for the given producer is appended
(with the next fresh consumer id); otherwise nothing changes. -/
lemma makeConsumer_find_self (cc : Nat → Nat → Bool) (room : Room)
    (cid owner : Nat) (prod : Producer) (tid : Nat) (q : Participant)
    (hq : findParticipant room cid = some q) :
    findParticipant (makeConsumer cc room cid owner prod tid).1 cid =
      some (if capsOk cc q prod.id then
              { q with consumers := q.consumers ++
                  [{ id := room.nextConsumerId, producerId := prod.id, paused := true }] }
            else q) := by
  by_cases h : capsOk cc q prod.id
  · have hupd := findParticipant_update_self room cid
      (fun u => { u with consumers := u.consumers ++
        [{ id := room.nextConsumerId, producerId := prod.id, paused := true }] })
      (fun p => rfl)
    simp only [makeConsumer, hq, h, if_true]
    rw [findParticipant_set_nextConsumerId, hupd, hq]
    rfl
  · simp only [makeConsumer, hq, h]
    simp [hq, h]

/-- makeConsumer touches only the consuming participant. -/
lemma makeConsumer_find_other (cc : Nat → Nat → Bool) (room : Room)
    (cid owner : Nat) (prod : Producer) (tid : Nat) (pid2 : Nat) (hne : pid2 ≠ cid) :
    findParticipant (makeConsumer cc room cid owner prod tid).1 pid2 =
      findParticipant room pid2 := by
  cases hfind : findParticipant room cid with
  | none => simp [makeConsumer, hfind]
  | some q =>
    by_cases h : capsOk cc q prod.id
    · have hupd := findParticipant_update_other room cid pid2
        (fun u => { u with consumers := u.consumers ++
          [{ id := room.nextConsumerId, producerId := prod.id, paused := true }] })
        (fun p => rfl) hne
      simp only [makeConsumer, hfind, h, if_true]
      rw [findParticipant_set_nextConsumerId, hupd]
    · simp [makeConsumer, hfind, h]

/-- makeConsumer keeps the id list of the participants. -/
lemma makeConsumer_ids (cc : Nat → Nat → Bool) (room : Room)
    (cid owner : Nat) (prod : Producer) (tid : Nat) :
    (makeConsumer cc room cid owner prod tid).1.participants.map (fun q => q.id) =
      room.participants.map (fun q => q.id) := by
  cases hfind : findParticipant room cid with
  | none => simp [makeConsumer, hfind]
  | some q =>
    by_cases h : capsOk cc q prod.id
    · have hupd := updateParticipant_ids room cid
        (fun u => { u with consumers := u.consumers ++
          [{ id := room.nextConsumerId, producerId := prod.id, paused := true }] })
        (fun p => rfl)
      simp only [makeConsumer, hfind, h, if_true]
      exact hupd
    · simp [makeConsumer, hfind, h]

/-! ### Roster lemmas -/

/-- The join roster ignores an id-preserving update of the excluded id. -/
lemma filter_joined_map_update (l : List Participant) (pid : Nat)
    (f : Participant → Participant) (hid : ∀ p, (f p).id = p.id) :
    (l.map (fun p => if p.id == pid then f p else p)).filter (fun u => u.joined && u.id != pid) =
      l.filter (fun u => u.joined && u.id != pid) := by
  induction l with
  | nil => rfl
  | cons a t ih =>
    rw [List.map_cons]
    by_cases h : a.id = pid
    · have hg : (if (a.id == pid) = true then f a else a) = f a := if_pos (by simp [h])
      rw [hg, List.filter_cons, List.filter_cons,
          if_neg (by simp [hid, h]), if_neg (by simp [h])]
      exact ih
    · have hg : (if (a.id == pid) = true then f a else a) = a := if_neg (by simp [h])
      rw [hg, List.filter_cons, List.filter_cons]
      by_cases hj : (a.joined && a.id != pid) = true
      · rw [if_pos hj, if_pos hj, ih]
      · rw [if_neg hj, if_neg hj]
        exact ih

lemma getJoined_update (room : Room) (pid : Nat) (f : Participant → Participant)
    (hid : ∀ p, (f p).id = p.id) :
    getJoinedParticipants (updateParticipant room pid f) pid = getJoinedParticipants room pid :=
  filter_joined_map_update room.participants pid f hid

lemma getJoined_set_nextProducerId (room : Room) (n pid : Nat) :
    getJoinedParticipants { room with nextProducerId := n } pid =
      getJoinedParticipants room pid := rfl

lemma mem_getJoined (room : Room) (pid : Nat) (q : Participant)
    (hq : q ∈ room.participants) (hj : q.joined = true) (hne : q.id ≠ pid) :
    q ∈ getJoinedParticipants room pid :=
  List.mem_filter.mpr ⟨hq, by simp [hj, hne]⟩

lemma getJoined_mem_props (room : Room) (pid : Nat) (q : Participant)
    (hq : q ∈ getJoinedParticipants room pid) :
    q ∈ room.participants ∧ q.joined = true ∧ q.id ≠ pid := by
  have h := List.mem_filter.mp hq
  have h2 : q.joined = true ∧ q.id ≠ pid := by simpa using h.2
  exact ⟨h.1, h2.1, h2.2⟩

lemma getJoined_sublist (room : Room) (pid : Nat) :
    List.Sublist (getJoinedParticipants room pid) room.participants :=
  List.filter_sublist room.participants

/-! ### Fan-out fold lemmas -/

/-- Folding makeConsumer over a static list of producers for a fixed
consuming participant appends exactly the capability-compatible producers
(in order) to that participant's consumer map. -/
lemma consume_fold_consumers (cc : Nat → Nat → Bool) (pid ownerPid tid caps : Nat)
    (prods : List Producer) :
    ∀ (acc : Room × List Effect) (q : Participant),
      findParticipant acc.1 pid = some q → q.capabilities_rtp = some caps →
      ∃ q', findParticipant (prods.foldl (fun a pr =>
              let step := makeConsumer cc a.1 pid ownerPid pr tid
              (step.1, a.2 ++ step.2)) acc).1 pid = some q' ∧
        q'.capabilities_rtp = some caps ∧
        q'.consumers.map (fun c => c.producerId) =
          q.consumers.map (fun c => c.producerId) ++
            (prods.map (fun pr => pr.id)).filter (cc caps) := by
  induction prods with
  | nil =>
    intro acc q hq hcaps
    exact ⟨q, hq, hcaps, by simp⟩
  | cons pr rest ih =>
    intro acc q hq hcaps
    rw [List.foldl_cons]
    have hself := makeConsumer_find_self cc acc.1 pid ownerPid pr tid q hq
    cases h : cc caps pr.id with
    | true =>
      have hco : capsOk cc q pr.id = true := by
        rw [capsOk_eq cc q caps pr.id hcaps]; exact h
      simp only [hco, if_true] at hself
      obtain ⟨q', hq', hcaps', hmap'⟩ := ih
        ((makeConsumer cc acc.1 pid ownerPid pr tid).1,
         acc.2 ++ (makeConsumer cc acc.1 pid ownerPid pr tid).2) _ hself hcaps
      refine ⟨q', hq', hcaps', ?_⟩
      rw [hmap']
      simp [h, List.filter_cons]
    | false =>
      have hco : capsOk cc q pr.id = false := by
        rw [capsOk_eq cc q caps pr.id hcaps]; exact h
      simp only [hco, Bool.false_eq_true, if_false] at hself
      obtain ⟨q', hq', hcaps', hmap'⟩ := ih
        ((makeConsumer cc acc.1 pid ownerPid pr tid).1,
         acc.2 ++ (makeConsumer cc acc.1 pid ownerPid pr tid).2) _ hself hcaps
      refine ⟨q', hq', hcaps', ?_⟩
      rw [hmap']
      simp [h, List.filter_cons]

/-- The nested fold of the config acknowledgment callback: the consuming
participant ends with a consumer for every capability-compatible producer
of every roster peer, in roster order. -/
lemma config_fanout_consumers (cc : Nat → Nat → Bool) (pid tid caps : Nat)
    (peers : List Participant) :
    ∀ (acc : Room × List Effect) (q : Participant),
      findParticipant acc.1 pid = some q → q.capabilities_rtp = some caps →
      ∃ q', findParticipant (peers.foldl (fun acc2 peer =>
              peer.producers.foldl (fun a pr =>
                let step := makeConsumer cc a.1 pid peer.id pr tid
                (step.1, a.2 ++ step.2)) acc2) acc).1 pid = some q' ∧
        q'.capabilities_rtp = some caps ∧
        q'.consumers.map (fun c => c.producerId) =
          q.consumers.map (fun c => c.producerId) ++
            ((peers.flatMap (fun peer => peer.producers)).map (fun pr => pr.id)).filter (cc caps) := by
  induction peers with
  | nil =>
    intro acc q hq hcaps
    exact ⟨q, hq, hcaps, by simp⟩
  | cons peer rest ih =>
    intro acc q hq hcaps
    rw [List.foldl_cons]
    obtain ⟨q1, hq1, hcaps1, hmap1⟩ :=
      consume_fold_consumers cc pid peer.id tid caps peer.producers acc q hq hcaps
    obtain ⟨q', hq', hcaps', hmap'⟩ := ih _ q1 hq1 hcaps1
    refine ⟨q', hq', hcaps', ?_⟩
    rw [hmap', hmap1]
    simp [List.flatMap_cons, List.filter_append, List.append_assoc]

/-- One step of the produce fan-out loop does not affect participants other
than the peer being served. -/
lemma produce_step_other (cc : Nat → Nat → Bool) (ownerPid : Nat) (prod : Producer)
    (peer : Participant) (acc : Room × List Effect) (pid2 : Nat) (hne : pid2 ≠ peer.id) :
    findParticipant ((match peer.transports.find? (fun t => t.ttype == TType.consumer) with
      | none => acc
      | some t =>
        let step := makeConsumer cc acc.1 peer.id ownerPid prod t.id
        (step.1, acc.2 ++ step.2)) : Room × List Effect).1 pid2 =
      findParticipant acc.1 pid2 := by
  cases htr : peer.transports.find? (fun t => t.ttype == TType.consumer) with
  | none => rfl
  | some t => exact makeConsumer_find_other cc acc.1 peer.id ownerPid prod t.id pid2 hne

/-- One step of the produce fan-out loop gives the served peer exactly one
consumer for the new producer when the peer has a consumer transport and
passes the capability check, and none otherwise. -/
lemma produce_step_self (cc : Nat → Nat → Bool) (ownerPid : Nat) (prod : Producer)
    (peer : Participant) (acc : Room × List Effect) (q : Participant)
    (hq : findParticipant acc.1 peer.id = some q) :
    ∃ q', findParticipant ((match peer.transports.find? (fun t => t.ttype == TType.consumer) with
      | none => acc
      | some t =>
        let step := makeConsumer cc acc.1 peer.id ownerPid prod t.id
        (step.1, acc.2 ++ step.2)) : Room × List Effect).1 peer.id = some q' ∧
      q'.consumers.map (fun c => c.producerId) =
        q.consumers.map (fun c => c.producerId) ++
          (if (peer.transports.find? (fun t => t.ttype == TType.consumer)).isSome
              && capsOk cc q prod.id then [prod.id] else []) := by
  cases htr : peer.transports.find? (fun t => t.ttype == TType.consumer) with
  | none => exact ⟨q, hq, by simp⟩
  | some t =>
    have hself := makeConsumer_find_self cc acc.1 peer.id ownerPid prod t.id q hq
    cases hcaps : capsOk cc q prod.id with
    | true =>
      simp only [hcaps, if_true] at hself
      exact ⟨_, hself, by simp [hcaps]⟩
    | false =>
      simp only [hcaps, Bool.false_eq_true, if_false] at hself
      exact ⟨q, hself, by simp [hcaps]⟩

/-- The produce fan-out fold: participants outside the roster are
untouched, and every roster peer gains exactly one consumer for the new
producer when it has a consumer transport and passes the capability check,
and none otherwise. -/
lemma produce_fanout_fold (cc : Nat → Nat → Bool) (ownerPid : Nat) (prod : Producer)
    (peers : List Participant) :
    ∀ (acc : Room × List Effect),
      (∀ peer ∈ peers, findParticipant acc.1 peer.id = some peer) →
      (peers.map (fun u => u.id)).Nodup →
      (∀ pid2, pid2 ∉ peers.map (fun u => u.id) →
          findParticipant (peers.foldl (fun acc2 peer =>
            match peer.transports.find? (fun t => t.ttype == TType.consumer) with
            | none => acc2
            | some t =>
              let step := makeConsumer cc acc2.1 peer.id ownerPid prod t.id
              (step.1, acc2.2 ++ step.2)) acc).1 pid2 = findParticipant acc.1 pid2) ∧
      (∀ peer ∈ peers, ∃ q',
          findParticipant (peers.foldl (fun acc2 peer =>
            match peer.transports.find? (fun t => t.ttype == TType.consumer) with
            | none => acc2
            | some t =>
              let step := makeConsumer cc acc2.1 peer.id ownerPid prod t.id
              (step.1, acc2.2 ++ step.2)) acc).1 peer.id = some q' ∧
          q'.consumers.map (fun c => c.producerId) =
            peer.consumers.map (fun c => c.producerId) ++
              (if (peer.transports.find? (fun t => t.ttype == TType.consumer)).isSome
                  && capsOk cc peer prod.id then [prod.id] else [])) := by
  induction peers with
  | nil =>
    intro acc _ _
    exact ⟨fun pid2 _ => rfl, fun peer hmem => absurd hmem (List.not_mem_nil peer)⟩
  | cons peer rest ih =>
    intro acc hmem hnd
    simp only [List.map_cons] at hnd
    have hndc := List.nodup_cons.mp hnd
    have hmemhead := hmem peer (List.mem_cons_self peer rest)
    have hmem2 : ∀ p2 ∈ rest, p2.id ≠ peer.id := by
      intro p2 hp2 hcontra
      apply hndc.1
      rw [← hcontra]
      exact List.mem_map_of_mem (fun u => u.id) hp2
    have hmem' : ∀ p2 ∈ rest,
        findParticipant ((match peer.transports.find? (fun t => t.ttype == TType.consumer) with
          | none => acc
          | some t =>
            let step := makeConsumer cc acc.1 peer.id ownerPid prod t.id
            (step.1, acc.2 ++ step.2)) : Room × List Effect).1 p2.id = some p2 := by
      intro p2 hp2
      rw [produce_step_other cc ownerPid prod peer acc p2.id (hmem2 p2 hp2)]
      exact hmem p2 (List.mem_cons_of_mem peer hp2)
    obtain ⟨ihA, ihB⟩ := ih _ hmem' hndc.2
    constructor
    · intro pid2 hnot
      have hnot2 : pid2 ∉ rest.map (fun u => u.id) ∧ pid2 ≠ peer.id := by
        constructor
        · intro hmm
          exact hnot (by simp [hmm])
        · intro hmm
          exact hnot (by simp [hmm])
      rw [List.foldl_cons]
      exact (ihA pid2 hnot2.1).trans (produce_step_other cc ownerPid prod peer acc pid2 hnot2.2)
    · intro p2 hp2
      rcases List.mem_cons.mp hp2 with rfl | hp2
      · have hid : p2.id ∉ rest.map (fun u => u.id) := hndc.1
        obtain ⟨q', hstep, hmap⟩ := produce_step_self cc ownerPid prod p2 acc p2 hmemhead
        refine ⟨q', ?_, hmap⟩
        rw [List.foldl_cons]
        exact (ihA p2.id hid).trans hstep
      · obtain ⟨q', hfind, hmap⟩ := ihB p2 hp2
        refine ⟨q', ?_, hmap⟩
        rw [List.foldl_cons]
        exact hfind

/-! ### Worker selection -/

/-- Invariant proof for the selection loop: scanning the remaining loads
from index `i` with current best index `best` (which is minimal on the
prefix, strictly smaller than every earlier entry) returns the first index
of a minimal load. -/
lemma selectScan_spec (loads : List ℚ) :
    ∀ (rest : List ℚ) (i best : Nat),
      rest = loads.drop i → best < loads.length →
      (∀ k, k < i → k < loads.length → loads.getD best 0 ≤ loads.getD k 0) →
      (∀ k, k < best → loads.getD best 0 < loads.getD k 0) →
      selectScan loads best i rest < loads.length ∧
      (∀ k, k < loads.length → loads.getD (selectScan loads best i rest) 0 ≤ loads.getD k 0) ∧
      (∀ k, k < selectScan loads best i rest →
        loads.getD (selectScan loads best i rest) 0 < loads.getD k 0) := by
  intro rest
  induction rest with
  | nil =>
    intro i best hdrop hb hle hlt
    have hlen : loads.length ≤ i := List.drop_eq_nil_iff.mp hdrop.symm
    exact ⟨hb, fun k hk => hle k (lt_of_lt_of_le hk hlen) hk, hlt⟩
  | cons l rest' ih =>
    intro i best hdrop hb hle hlt
    have hi : i < loads.length := by
      by_contra hcon
      push_neg at hcon
      rw [List.drop_eq_nil_iff.mpr hcon] at hdrop
      cases hdrop
    rw [List.drop_eq_getElem_cons hi] at hdrop
    injection hdrop with hl hrest
    have hgi : loads.getD i 0 = l := by rw [List.getD_eq_getElem loads 0 hi, hl]
    simp only [selectScan]
    by_cases hc : l < loads.getD best 0
    · rw [if_pos hc]
      apply ih (i + 1) i hrest hi
      · intro k hk hklen
        rcases Nat.lt_succ_iff_lt_or_eq.mp hk with hki | rfl
        · rw [hgi]
          exact le_of_lt (lt_of_lt_of_le hc (hle k hki hklen))
        · exact le_refl _
      · intro k hk
        have hbk : loads.getD best 0 ≤ loads.getD k 0 := by
          by_cases hkb : k < best
          · exact le_of_lt (hlt k hkb)
          · exact hle k hk (lt_trans hk hi)
        rw [hgi]
        exact lt_of_lt_of_le hc hbk
    · rw [if_neg hc]
      apply ih (i + 1) best hrest hb
      · intro k hk hklen
        rcases Nat.lt_succ_iff_lt_or_eq.mp hk with hki | rfl
        · exact hle k hki hklen
        · rw [hgi]
          exact not_lt.mp hc
      · exact hlt

lemma findParticipant_set_nextProducerId (room : Room) (n pid : Nat) :
    findParticipant { room with nextProducerId := n } pid = findParticipant room pid := rfl

/-- Counting consumers that reference a producer equals counting that
producer id in the projected id list. -/
lemma length_filter_producerId (l : List Consumer) (n : Nat) :
    (l.filter (fun c => c.producerId == n)).length =
      ((l.map (fun c => c.producerId)).filter (fun m => m == n)).length := by
  induction l with
  | nil => rfl
  | cons c t ih =>
    by_cases h : c.producerId = n <;> simp [List.filter_cons, h, ih]

lemma findP_filter_ne (l : List Participant) (pid : Nat) :
    findP (l.filter (fun q => q.id != pid)) pid = none := by
  induction l with
  | nil => rfl
  | cons a t ih =>
    by_cases h : a.id = pid
    · simp [List.filter_cons, h, ih]
    · simp [List.filter_cons, findP, h, ih]

/-! ### Concrete fixtures (used by witnesses and concrete runs) -/

/-- A canConsume oracle accepting every pair. -/
def ccAll : Nat → Nat → Bool := fun _ _ => true

/-- A pending participant owning one consumer transport. -/
def samplePending : Participant :=
  { id := 1, joined := false, device := none,
    transports := [{ id := 50, ttype := TType.consumer }],
    producers := [], consumers := [], capabilities_rtp := none, capabilities_sctp := none,
    is_admin := false, permissions := [] }

/-- A joined participant owning a consumer transport and one audio producer. -/
def sampleJoined : Participant :=
  { id := 2, joined := true, device := some 0,
    transports := [{ id := 60, ttype := TType.consumer }],
    producers := [{ id := 10, kind := MKind.audio }], consumers := [],
    capabilities_rtp := some 3, capabilities_sctp := some 3,
    is_admin := false, permissions := [Perm.can_speak] }

/-- A room holding the two sample participants. -/
def sampleRoom : Room :=
  { id := 0, routerId := 0, observers_audioLevel := some 4,
    participants := [samplePending, sampleJoined], speaking := [],
    nextProducerId := 11, nextConsumerId := 0 }

/-- Two concurrent getRoom calls for room id 7, both passing the registry
check before either insert: caller one starts, caller two starts (registry
still empty), then both resume through their two await points. -/
def raceRun : ServerSt × GetRoomPC × GetRoomPC :=
  let s0 : ServerSt := { registry := [], nextEngineId := 0, routersCreated := 0 }
  let r1 := getRoomStep 7 [] s0 GetRoomPC.start
  let r2 := getRoomStep 7 [] r1.1 GetRoomPC.start
  let r3 := getRoomStep 7 [] r2.1 r1.2
  let r4 := getRoomStep 7 [] r3.1 r2.2
  let r5 := getRoomStep 7 [] r4.1 r3.2
  let r6 := getRoomStep 7 [] r5.1 r4.2
  (r6.1, r5.2, r6.2)

/-! ### Claim theorems -/

/-- C1 (violated by the code): getRoom checks the registry and only inserts
the new room after two awaited engine calls, so two calls for the same id
that interleave at the await points both create a room: two routers are
created, the callers finish holding distinct Room objects, and the registry
keeps only the second one — the first caller neither shares its room nor is
its room reachable by later callers. -/
theorem getRoom_concurrent_calls_create_two_rooms :
    raceRun.1.routersCreated = 2 ∧
    (pcRoom raceRun.2.1).map (fun r => r.routerId) = some 0 ∧
    (pcRoom raceRun.2.2).map (fun r => r.routerId) = some 1 ∧
    (lookupRoom raceRun.1.registry 7).map (fun r => r.routerId) = some 1 := by
  decide

/-- C4 (violated by the code): makeConsumer performs no lookup for an
existing consumer of the same (consuming participant, producer) pair; a
repeated call creates a second consumer referencing the same producer. -/
theorem makeConsumer_not_idempotent :
    ((findParticipant (makeConsumer ccAll (makeConsumer ccAll sampleRoom 2 1
        { id := 5, kind := MKind.audio } 60).1 2 1
        { id := 5, kind := MKind.audio } 60).1 2).map
      (fun q => (q.consumers.filter (fun c => c.producerId == 5)).length)) = some 2 := by
  decide

/-- C5 (violated by the code in the absent case): closeRoom on an id that
is not in the registry reads the participants of an undefined room and
throws a TypeError instead of returning as a no-op; on a present id it
disconnects every remaining participant socket, closes the router and
removes the registry entry. -/
theorem closeRoom_absent_id_throws :
    closeRoom ([] : Registry) 0 =
      Except.error "TypeError: Cannot read properties of undefined (reading participants)" ∧
    closeRoom [(0, sampleRoom)] 0 =
      Except.ok ([], [Effect.disconnectSocket 1, Effect.disconnectSocket 2,
                      Effect.closeRouter 0]) := by
  constructor
  · rfl
  · rfl

/-- C2: for a participant that completes the join protocol (the config
handler runs and the joined acknowledgment callback fires), the set of
consumers created for it equals the set of producers owned by participants
that were Joined strictly before it joined (the roster taken at config
time), filtered by the engine capability check against its announced rtp
capabilities — no duplicates, no omissions. -/
theorem config_initial_consumer_set (cc : Nat → Nat → Bool) (room : Room)
    (pid device rtpCaps sctpCaps : Nat) (p : Participant)
    (hp : findParticipant room pid = some p)
    (hc0 : p.consumers = [])
    (htr : (p.transports.find? (fun t => t.ttype == TType.consumer)).isSome = true)
    (hnd : (((getJoinedParticipants room pid).flatMap (fun peer => peer.producers)).map
        (fun pr => pr.id)).Nodup) :
    (handleConfig cc room pid device rtpCaps sctpCaps).thrown = none ∧
    ∃ q, findParticipant (handleConfig cc room pid device rtpCaps sctpCaps).room pid = some q ∧
      q.consumers.map (fun c => c.producerId) =
        (((getJoinedParticipants room pid).flatMap (fun peer => peer.producers)).map
          (fun pr => pr.id)).filter (cc rtpCaps) ∧
      (q.consumers.map (fun c => c.producerId)).Nodup := by
  obtain ⟨tr, htr'⟩ := Option.isSome_iff_exists.mp htr
  have hq1 : findParticipant (updateParticipant room pid (fun q =>
      { q with device := some device, capabilities_rtp := some rtpCaps,
               capabilities_sctp := some sctpCaps, joined := true })) pid =
      some ({ p with device := some device, capabilities_rtp := some rtpCaps,
                     capabilities_sctp := some sctpCaps, joined := true }) := by
    rw [findParticipant_update_self room pid
      (fun q => { q with device := some device, capabilities_rtp := some rtpCaps,
                         capabilities_sctp := some sctpCaps, joined := true })
      (fun u => rfl), hp]
    rfl
  have hroster : getJoinedParticipants (updateParticipant room pid (fun q =>
      { q with device := some device, capabilities_rtp := some rtpCaps,
               capabilities_sctp := some sctpCaps, joined := true })) pid =
      getJoinedParticipants room pid :=
    getJoined_update room pid _ (fun u => rfl)
  obtain ⟨q', hq', hcaps', hmap'⟩ := config_fanout_consumers cc pid tr.id rtpCaps
    (getJoinedParticipants (updateParticipant room pid (fun q =>
      { q with device := some device, capabilities_rtp := some rtpCaps,
               capabilities_sctp := some sctpCaps, joined := true })) pid)
    (updateParticipant room pid (fun q =>
      { q with device := some device, capabilities_rtp := some rtpCaps,
               capabilities_sctp := some sctpCaps, joined := true }), [])
    _ hq1 rfl
  rw [hroster] at hmap'
  simp only [handleConfig, hp, htr']
  refine ⟨trivial, q', hq', ?_, ?_⟩
  · rw [hmap']
    simp [hc0]
  · rw [hmap']
    simp only [hc0, List.map_nil, List.nil_append]
    exact List.Nodup.filter _ hnd

/-- C3: a successful produce by a joined participant creates one producer
(fresh id), replies with its id, and gives every other currently-Joined
participant exactly one new consumer referencing the new producer — except
those whose receive capabilities are absent or rejected by the engine
check — while the producing participant itself gains no consumer. The
hypotheses state reachable-state invariants: unique participant ids, every
joined peer owns a consumer transport (addParticipant always creates one),
and the fresh producer id is referenced by no existing consumer. -/
theorem produce_gains_one_consumer_each (cc : Nat → Nat → Bool) (room : Room)
    (pid tid : Nat) (kind : MKind) (p : Participant)
    (hp : findParticipant room pid = some p)
    (hj : p.joined = true)
    (hperm : (!p.is_admin &&
       ((kind == MKind.audio && !(p.permissions.contains Perm.can_speak)) ||
        (kind == MKind.video && !(p.permissions.contains Perm.can_share_video)))) = false)
    (htr : (p.transports.find? (fun t => t.id == tid)).isSome = true)
    (hids : (room.participants.map (fun u => u.id)).Nodup)
    (hct : ∀ q ∈ room.participants, q.joined = true → q.id ≠ pid →
        (q.transports.find? (fun t => t.ttype == TType.consumer)).isSome = true)
    (hfresh : ∀ q ∈ room.participants, ∀ c ∈ q.consumers, c.producerId ≠ room.nextProducerId) :
    (handleProduce cc room pid tid kind).thrown = none ∧
    Effect.produceCallback (some room.nextProducerId) ∈ (handleProduce cc room pid tid kind).effects ∧
    (∃ pA, findParticipant (handleProduce cc room pid tid kind).room pid = some pA ∧
       pA.consumers = p.consumers ∧
       pA.producers = p.producers ++ [{ id := room.nextProducerId, kind := kind }]) ∧
    (∀ q ∈ room.participants, q.id ≠ pid →
       ∃ q', findParticipant (handleProduce cc room pid tid kind).room q.id = some q' ∧
         q'.consumers.map (fun c => c.producerId) =
           q.consumers.map (fun c => c.producerId) ++
             (if q.joined && capsOk cc q room.nextProducerId then [room.nextProducerId] else []) ∧
         (q'.consumers.filter (fun c => c.producerId == room.nextProducerId)).length =
           (if q.joined && capsOk cc q room.nextProducerId then 1 else 0)) := by
  obtain ⟨trp, htrp⟩ := Option.isSome_iff_exists.mp htr
  have hids1 : ((updateParticipant room pid (fun q =>
      { q with producers := q.producers ++ [{ id := room.nextProducerId, kind := kind }] })).participants.map
        (fun u => u.id)).Nodup := by
    rw [updateParticipant_ids room pid (fun q =>
      { q with producers := q.producers ++ [{ id := room.nextProducerId, kind := kind }] })
      (fun u => rfl)]
    exact hids
  have hmem1 : ∀ peer ∈ getJoinedParticipants ({ updateParticipant room pid (fun q =>
      { q with producers := q.producers ++ [{ id := room.nextProducerId, kind := kind }] }) with
        nextProducerId := room.nextProducerId + 1 } : Room) pid,
      findParticipant ({ updateParticipant room pid (fun q =>
        { q with producers := q.producers ++ [{ id := room.nextProducerId, kind := kind }] }) with
          nextProducerId := room.nextProducerId + 1 } : Room) peer.id = some peer := by
    intro peer hpe
    exact findParticipant_of_mem _ peer hids1 (getJoined_mem_props _ pid peer hpe).1
  have hndpeers : ((getJoinedParticipants ({ updateParticipant room pid (fun q =>
      { q with producers := q.producers ++ [{ id := room.nextProducerId, kind := kind }] }) with
        nextProducerId := room.nextProducerId + 1 } : Room) pid).map (fun u => u.id)).Nodup :=
    List.Nodup.sublist (List.Sublist.map _ (getJoined_sublist _ pid)) hids1
  obtain ⟨foldA, foldB⟩ := produce_fanout_fold cc pid
    { id := room.nextProducerId, kind := kind }
    (getJoinedParticipants ({ updateParticipant room pid (fun q =>
      { q with producers := q.producers ++ [{ id := room.nextProducerId, kind := kind }] }) with
        nextProducerId := room.nextProducerId + 1 } : Room) pid)
    (({ updateParticipant room pid (fun q =>
      { q with producers := q.producers ++ [{ id := room.nextProducerId, kind := kind }] }) with
        nextProducerId := room.nextProducerId + 1 } : Room), [])
    hmem1 hndpeers
  have hpidout : pid ∉ (getJoinedParticipants ({ updateParticipant room pid (fun q =>
      { q with producers := q.producers ++ [{ id := room.nextProducerId, kind := kind }] }) with
        nextProducerId := room.nextProducerId + 1 } : Room) pid).map (fun u => u.id) := by
    intro hmm
    obtain ⟨peer, hpe, hpeid⟩ := List.mem_map.mp hmm
    exact (getJoined_mem_props _ pid peer hpe).2.2 hpeid
  have hfA : findParticipant (updateParticipant room pid (fun q =>
      { q with producers := q.producers ++ [{ id := room.nextProducerId, kind := kind }] })) pid =
      some ({ p with producers := p.producers ++ [{ id := room.nextProducerId, kind := kind }] }) := by
    rw [findParticipant_update_self room pid (fun q =>
      { q with producers := q.producers ++ [{ id := room.nextProducerId, kind := kind }] })
      (fun u => rfl), hp]
    rfl
  simp only [handleProduce, hp, hj, hperm, htrp, if_true, Bool.false_eq_true, if_false]
  refine ⟨trivial, by simp, ?_, ?_⟩
  · exact ⟨{ p with producers := p.producers ++ [{ id := room.nextProducerId, kind := kind }] },
      (foldA pid hpidout).trans hfA, rfl, rfl⟩
  · intro q hq hqne
    by_cases hqj : q.joined = true
    · have hq1 : q ∈ (updateParticipant room pid (fun q =>
          { q with producers := q.producers ++ [{ id := room.nextProducerId, kind := kind }] })).participants :=
        mem_update_of_ne room pid _ q hq hqne
      have hqpe : q ∈ getJoinedParticipants ({ updateParticipant room pid (fun q =>
          { q with producers := q.producers ++ [{ id := room.nextProducerId, kind := kind }] }) with
            nextProducerId := room.nextProducerId + 1 } : Room) pid :=
        mem_getJoined _ pid q hq1 hqj hqne
      obtain ⟨q', hfind, hmap⟩ := foldB q hqpe
      have hctq := hct q hq hqj hqne
      rw [hctq, Bool.true_and] at hmap
      have hbase : ((q.consumers.map (fun c => c.producerId)).filter
          (fun m => m == room.nextProducerId)) = [] := by
        rw [List.filter_eq_nil_iff]
        intro m hm
        obtain ⟨c, hc, rfl⟩ := List.mem_map.mp hm
        simpa using hfresh q hq c hc
      refine ⟨q', hfind, ?_, ?_⟩
      · rw [hmap, hqj, Bool.true_and]
      · rw [length_filter_producerId, hmap, hqj, Bool.true_and]
        by_cases hcp : capsOk cc q room.nextProducerId = true
        · simp [hcp, List.filter_append, hbase]
        · simp only [Bool.not_eq_true] at hcp
          simp [hcp, List.filter_append, hbase]
    · have hqj' : q.joined = false := by
        cases hqq : q.joined
        · rfl
        · exact absurd hqq hqj
      have hq1 : q ∈ (updateParticipant room pid (fun q =>
          { q with producers := q.producers ++ [{ id := room.nextProducerId, kind := kind }] })).participants :=
        mem_update_of_ne room pid _ q hq hqne
      have hqout : q.id ∉ (getJoinedParticipants ({ updateParticipant room pid (fun q =>
          { q with producers := q.producers ++ [{ id := room.nextProducerId, kind := kind }] }) with
            nextProducerId := room.nextProducerId + 1 } : Room) pid).map (fun u => u.id) := by
        intro hmm
        obtain ⟨peer, hpe, hpeid⟩ := List.mem_map.mp hmm
        have hprops := getJoined_mem_props _ pid peer hpe
        have hpq : peer = q := member_id_inj _ peer q hids1 hprops.1 hq1 hpeid
        rw [hpq] at hprops
        rw [hprops.2.1] at hqj'
        cases hqj'
      have hfq : findParticipant (updateParticipant room pid (fun q =>
          { q with producers := q.producers ++ [{ id := room.nextProducerId, kind := kind }] })) q.id =
          some q :=
        (findParticipant_update_other room pid q.id (fun q =>
          { q with producers := q.producers ++ [{ id := room.nextProducerId, kind := kind }] })
          (fun u => rfl) hqne).trans
          (findParticipant_of_mem room q hids hq)
      have hbase : ((q.consumers.map (fun c => c.producerId)).filter
          (fun m => m == room.nextProducerId)) = [] := by
        rw [List.filter_eq_nil_iff]
        intro m hm
        obtain ⟨c, hc, rfl⟩ := List.mem_map.mp hm
        simpa using hfresh q hq c hc
      refine ⟨q, (foldA q.id hqout).trans hfq, ?_, ?_⟩
      · simp [hqj']
      · rw [length_filter_producerId]
        simp [hqj', hbase]

/-- Witness for C2 at a concrete room: the pending participant joins and
ends with exactly the consumers for the joined peer's producer. -/
theorem config_initial_consumer_set_witness :
    (handleConfig ccAll sampleRoom 1 5 7 8).thrown = none ∧
    ∃ q, findParticipant (handleConfig ccAll sampleRoom 1 5 7 8).room 1 = some q ∧
      q.consumers.map (fun c => c.producerId) =
        (((getJoinedParticipants sampleRoom 1).flatMap (fun peer => peer.producers)).map
          (fun pr => pr.id)).filter (ccAll 7) ∧
      (q.consumers.map (fun c => c.producerId)).Nodup :=
  config_initial_consumer_set ccAll sampleRoom 1 5 7 8 samplePending rfl rfl rfl (by decide)

/-- Witness for C3 at a concrete room: the joined participant produces and
the concrete hypotheses hold. -/
theorem produce_gains_one_consumer_each_witness :
    (handleProduce ccAll sampleRoom 2 60 MKind.audio).thrown = none ∧
    Effect.produceCallback (some sampleRoom.nextProducerId) ∈
      (handleProduce ccAll sampleRoom 2 60 MKind.audio).effects ∧
    (∃ pA, findParticipant (handleProduce ccAll sampleRoom 2 60 MKind.audio).room 2 = some pA ∧
       pA.consumers = sampleJoined.consumers ∧
       pA.producers = sampleJoined.producers ++
         [{ id := sampleRoom.nextProducerId, kind := MKind.audio }]) ∧
    (∀ q ∈ sampleRoom.participants, q.id ≠ 2 →
       ∃ q', findParticipant (handleProduce ccAll sampleRoom 2 60 MKind.audio).room q.id = some q' ∧
         q'.consumers.map (fun c => c.producerId) =
           q.consumers.map (fun c => c.producerId) ++
             (if q.joined && capsOk ccAll q sampleRoom.nextProducerId
              then [sampleRoom.nextProducerId] else []) ∧
         (q'.consumers.filter (fun c => c.producerId == sampleRoom.nextProducerId)).length =
           (if q.joined && capsOk ccAll q sampleRoom.nextProducerId then 1 else 0)) :=
  produce_gains_one_consumer_each ccAll sampleRoom 2 60 MKind.audio sampleJoined
    rfl rfl rfl rfl (by decide) (by decide) (by decide)

/-- C6: a produce request by a joined, non-admin participant lacking the
permission matching the requested kind is answered with a null producer id,
mutates nothing, and throws nothing. -/
theorem unauthorized_produce_null_reply (cc : Nat → Nat → Bool) (room : Room)
    (pid tid : Nat) (kind : MKind) (p : Participant)
    (hp : findParticipant room pid = some p)
    (hj : p.joined = true)
    (hadmin : p.is_admin = false)
    (hperm : (kind = MKind.audio ∧ p.permissions.contains Perm.can_speak = false) ∨
             (kind = MKind.video ∧ p.permissions.contains Perm.can_share_video = false)) :
    handleProduce cc room pid tid kind =
      { room := room, effects := [Effect.produceCallback none], thrown := none } := by
  rcases hperm with ⟨rfl, hperm⟩ | ⟨rfl, hperm⟩
  · have hguard : (!p.is_admin &&
        ((MKind.audio == MKind.audio && !(p.permissions.contains Perm.can_speak)) ||
         (MKind.audio == MKind.video && !(p.permissions.contains Perm.can_share_video)))) = true := by
      rw [hadmin, hperm]
      rfl
    simp only [handleProduce, hp, hj, hguard, if_true]
  · have hguard : (!p.is_admin &&
        ((MKind.video == MKind.audio && !(p.permissions.contains Perm.can_speak)) ||
         (MKind.video == MKind.video && !(p.permissions.contains Perm.can_share_video)))) = true := by
      rw [hadmin, hperm]
      rfl
    simp only [handleProduce, hp, hj, hguard, if_true]

/-- Witness for C6: the sample joined participant holds can_speak but not
can_share_video, so a video produce is denied with a null reply. -/
theorem unauthorized_produce_null_reply_witness :
    handleProduce ccAll sampleRoom 2 60 MKind.video =
      { room := sampleRoom, effects := [Effect.produceCallback none], thrown := none } :=
  unauthorized_produce_null_reply ccAll sampleRoom 2 60 MKind.video sampleJoined
    rfl rfl rfl (Or.inr ⟨rfl, rfl⟩)

/-- C7: the event wrapper never lets an error escape to its caller; a
synchronous throw or an asynchronous rejection is logged with the room and
sender context, and a normal return logs nothing. -/
theorem wrapper_event_isolates (roomId : Nat) (sender : Option Nat) (res : HRes) :
    (wrapperEvent roomId sender res).propagated = none ∧
    (wrapperEvent roomId sender res).room = res.room ∧
    (wrapperEvent roomId sender res).effects = res.effects ∧
    (∀ e, res.thrown = some e →
      (wrapperEvent roomId sender res).logs =
        [{ message := e.message, roomId := roomId, sender := sender }]) ∧
    (res.thrown = none → (wrapperEvent roomId sender res).logs = []) := by
  rcases res with ⟨rm, effs, thr⟩
  cases thr with
  | none =>
    refine ⟨rfl, rfl, rfl, ?_, fun _ => rfl⟩
    intro e h
    exact Option.noConfusion h
  | some e =>
    cases e with
    | syncThrow m =>
      refine ⟨rfl, rfl, rfl, ?_, ?_⟩
      · intro e2 h
        injection h with h2
        subst h2
        rfl
      · intro h
        exact Option.noConfusion h
    | asyncReject m =>
      refine ⟨rfl, rfl, rfl, ?_, ?_⟩
      · intro e2 h
        injection h with h2
        subst h2
        rfl
      · intro h
        exact Option.noConfusion h

/-- Witness for C7 at a concrete synchronous throw. -/
theorem wrapper_event_isolates_witness :
    (wrapperEvent 0 (some 1)
      { room := sampleRoom, effects := [], thrown := some (HandlerErr.syncThrow "boom") }).propagated =
      none ∧
    (wrapperEvent 0 (some 1)
      { room := sampleRoom, effects := [], thrown := some (HandlerErr.syncThrow "boom") }).logs =
      [{ message := "boom", roomId := 0, sender := some 1 }] :=
  ⟨(wrapper_event_isolates 0 (some 1) _).1,
   (wrapper_event_isolates 0 (some 1) _).2.2.2.1 (HandlerErr.syncThrow "boom") rfl⟩

/-- C8: a participant that disconnects while still Pending is fully cleaned
up — all its transports are closed, the membership-removal query is issued,
it is removed from the participant map, and the room is closed when it
became empty — and participant-left is not broadcast. -/
theorem pending_disconnect_cleanup (room : Room) (pid : Nat) (p : Participant)
    (hp : findParticipant room pid = some p)
    (hpend : p.joined = false) :
    (handleDisconnect room pid).thrown = none ∧
    (handleDisconnect room pid).room.participants =
      room.participants.filter (fun q => q.id != pid) ∧
    findParticipant (handleDisconnect room pid).room pid = none ∧
    (handleDisconnect room pid).effects =
      p.transports.map (fun t => Effect.closeTransport t.id) ++
        [Effect.dbRemoveParticipant room.id pid] ++
        (if (room.participants.filter (fun q => q.id != pid)).length == 0
         then [Effect.callCloseRoom room.id] else []) ∧
    (∀ x, Effect.emitParticipantLeft x ∉ (handleDisconnect room pid).effects) := by
  have hH : handleDisconnect room pid =
      { room := { room with participants := room.participants.filter (fun q => q.id != pid) },
        effects := p.transports.map (fun t => Effect.closeTransport t.id) ++
          [Effect.dbRemoveParticipant room.id pid] ++
          (if (room.participants.filter (fun q => q.id != pid)).length == 0
           then [Effect.callCloseRoom room.id] else []),
        thrown := none } := by
    simp only [handleDisconnect, hp, hpend, Bool.false_eq_true, if_false, List.nil_append]
  rw [hH]
  refine ⟨rfl, rfl, findP_filter_ne room.participants pid, rfl, ?_⟩
  intro x hx
  rcases List.mem_append.mp hx with hx | hx
  · rcases List.mem_append.mp hx with hx | hx
    · obtain ⟨t, _, ht⟩ := List.mem_map.mp hx
      cases ht
    · rcases List.mem_singleton.mp hx with h
      cases h
  · by_cases hc : ((room.participants.filter (fun q => q.id != pid)).length == 0) = true
    · rw [if_pos hc] at hx
      rcases List.mem_singleton.mp hx with h
      cases h
    · rw [if_neg hc] at hx
      cases hx

/-- Witness for C8 at a concrete room: the pending participant disconnects;
the room still holds the joined participant afterwards, so no closeRoom
call is made, and no participant-left is broadcast. -/
theorem pending_disconnect_cleanup_witness :
    (handleDisconnect sampleRoom 1).thrown = none ∧
    (handleDisconnect sampleRoom 1).room.participants =
      sampleRoom.participants.filter (fun q => q.id != 1) ∧
    findParticipant (handleDisconnect sampleRoom 1).room 1 = none ∧
    (handleDisconnect sampleRoom 1).effects =
      samplePending.transports.map (fun t => Effect.closeTransport t.id) ++
        [Effect.dbRemoveParticipant sampleRoom.id 1] ++
        (if (sampleRoom.participants.filter (fun q => q.id != 1)).length == 0
         then [Effect.callCloseRoom sampleRoom.id] else []) ∧
    (∀ x, Effect.emitParticipantLeft x ∉ (handleDisconnect sampleRoom 1).effects) :=
  pending_disconnect_cleanup sampleRoom 1 samplePending rfl rfl

/-- C9: worker selection scans loads linearly keeping the first strictly
smaller value, so it returns an index of minimal load and, among minimal
loads, the lowest index; in particular loads [0.7, 0.3] select index 1. -/
theorem worker_selection_least_loaded (loads : List ℚ) (h : 0 < loads.length) :
    (selectWorkerIdx loads < loads.length ∧
     (∀ k, k < loads.length →
        loads.getD (selectWorkerIdx loads) 0 ≤ loads.getD k 0) ∧
     (∀ k, k < selectWorkerIdx loads →
        loads.getD (selectWorkerIdx loads) 0 < loads.getD k 0)) ∧
    selectWorkerIdx [(7 : ℚ)/10, 3/10] = 1 := by
  constructor
  · exact selectScan_spec loads loads 0 0 rfl h
      (fun k hk _ => absurd hk (Nat.not_lt_zero k))
      (fun k hk => absurd hk (Nat.not_lt_zero k))
  · norm_num [selectWorkerIdx, selectScan]

/-- Witness for C9 at the spec scenario loads [0.7, 0.3]. -/
theorem worker_selection_least_loaded_witness :
    selectWorkerIdx [(7 : ℚ)/10, 3/10] = 1 ∧ 0 < ([(7 : ℚ)/10, 3/10]).length :=
  ⟨(worker_selection_least_loaded [(7 : ℚ)/10, 3/10] (by norm_num)).2, by norm_num⟩

/-- C10: every media-control handler first asserts that the sender exists
and is Joined; for a Pending sender each handler leaves the room unchanged,
performs no effect (in particular the produce callback is never invoked,
not even with null), and throws the assertion error, which the wrapper
catches and logs while propagating nothing. -/
theorem media_handlers_require_joined (cc : Nat → Nat → Bool) (room : Room)
    (pid : Nat) (p : Participant)
    (hp : findParticipant room pid = some p) (hpend : p.joined = false)
    (tid prodId : Nat) (kind : MKind) (ids : List Nat) :
    handleProduce cc room pid tid kind =
      { room := room, effects := [], thrown := some (.asyncReject joinedAssertMsg) } ∧
    handleConsumersPaused room pid ids =
      { room := room, effects := [], thrown := some (.asyncReject joinedAssertMsg) } ∧
    handleConsumersResumed room pid ids =
      { room := room, effects := [], thrown := some (.asyncReject joinedAssertMsg) } ∧
    handleProducerClosed room pid prodId =
      { room := room, effects := [], thrown := some (.syncThrow joinedAssertMsg) } ∧
    handleProducerPaused room pid prodId =
      { room := room, effects := [], thrown := some (.asyncReject joinedAssertMsg) } ∧
    handleProducerResumed room pid prodId =
      { room := room, effects := [], thrown := some (.asyncReject joinedAssertMsg) } ∧
    (∀ o : Option Nat, Effect.produceCallback o ∉ (handleProduce cc room pid tid kind).effects) ∧
    wrapperEvent room.id (some pid) (handleProduce cc room pid tid kind) =
      { room := room, effects := [],
        logs := [{ message := joinedAssertMsg, roomId := room.id, sender := some pid }],
        propagated := none } := by
  have h1 : handleProduce cc room pid tid kind =
      { room := room, effects := [], thrown := some (.asyncReject joinedAssertMsg) } := by
    simp [handleProduce, hp, hpend]
  refine ⟨h1, ?_, ?_, ?_, ?_, ?_, ?_, ?_⟩
  · simp [handleConsumersPaused, hp, hpend]
  · simp [handleConsumersResumed, hp, hpend]
  · simp [handleProducerClosed, hp, hpend]
  · simp [handleProducerPaused, hp, hpend]
  · simp [handleProducerResumed, hp, hpend]
  · rw [h1]
    intro o hx
    cases hx
  · rw [h1]
    rfl

/-- Witness for C10: the sample pending participant sends produce and the
other media-control events; all are rejected before any mutation. -/
theorem media_handlers_require_joined_witness :
    handleProduce ccAll sampleRoom 1 50 MKind.audio =
      { room := sampleRoom, effects := [],
        thrown := some (.asyncReject joinedAssertMsg) } ∧
    handleProducerClosed sampleRoom 1 10 =
      { room := sampleRoom, effects := [], thrown := some (.syncThrow joinedAssertMsg) } ∧
    wrapperEvent sampleRoom.id (some 1) (handleProduce ccAll sampleRoom 1 50 MKind.audio) =
      { room := sampleRoom, effects := [],
        logs := [{ message := joinedAssertMsg, roomId := sampleRoom.id, sender := some 1 }],
        propagated := none } :=
  ⟨(media_handlers_require_joined ccAll sampleRoom 1 samplePending rfl rfl 50 10 MKind.audio []).1,
   (media_handlers_require_joined ccAll sampleRoom 1 samplePending rfl rfl 50 10 MKind.audio []).2.2.2.1,
   (media_handlers_require_joined ccAll sampleRoom 1 samplePending rfl rfl 50 10 MKind.audio []).2.2.2.2.2.2.2⟩

end Avid
